import Mathlib

/-!
Verification of the usbguard daemon repository (ganto/usbguard).

The repository snapshot contains two source files:

* src/Library/Interface.hpp — the pure virtual operation/notification
  interface of the policy engine (appendRule, removeRule, listRules,
  applyDevicePolicy, listDevices; DevicePresenceChanged,
  DevicePolicyChanged, ExceptionMessage signals).  The implementing
  classes (RuleSet, Rule, the Policy Engine, Device Records) are not part
  of the snapshot, so the policy-engine operations below are modelled
  from the specification and verified against its stated properties.
* src/Daemon/main.cpp — the daemon entry point, embedded directly from
  the source (option-dependent hardening, the try/catch block around
  Daemon construction, loadConfiguration and run).
-/

namespace usbguard

/-- Modelled from the spec: authorization target of a rule (the type
behind Rule::Target in Interface.hpp, whose definition in Rule.hpp is not
part of the snapshot): Allow, Block, Reject, or Match (query-only
pass-through marker). -/
inductive Target where
  | Allow
  | Block
  | Reject
  | Match
  deriving DecidableEq, Repr

/-- Modelled from the spec: the device attribute names a rule condition
may constrain (vendor id, product id, serial, device class/interface
class, port path, connect-type, hash of descriptors). -/
inductive AttrName where
  | vendorId
  | productId
  | serial
  | deviceClass
  | port
  | connectType
  | hash
  deriving DecidableEq, Repr

/-- Modelled from the spec: the structured snapshot of a device's
declared properties.  Attribute values are abstracted as numeric codes;
only equality and ordering of values matter to the matching semantics. -/
structure DeviceAttributes where
  vendorId : Nat
  productId : Nat
  serial : Nat
  deviceClass : Nat
  port : Nat
  connectType : Nat
  hash : Nat
  deriving DecidableEq, Repr

/-- Look up one named attribute in a device snapshot. -/
def DeviceAttributes.attr (d : DeviceAttributes) : AttrName → Nat
  | .vendorId => d.vendorId
  | .productId => d.productId
  | .serial => d.serial
  | .deviceClass => d.deviceClass
  | .port => d.port
  | .connectType => d.connectType
  | .hash => d.hash

/-- Modelled from the spec: a per-attribute match predicate — exact
value, wildcard, numeric range, glob (abstracted as a finite set of
admissible values), or negation. -/
inductive AttrPredicate where
  | exactVal (v : Nat)
  | wildcard
  | range (lo hi : Nat)
  | glob (vs : List Nat)
  | negate (p : AttrPredicate)
  deriving DecidableEq, Repr

/-- Evaluate an attribute predicate on one attribute value. -/
def AttrPredicate.matchesVal : AttrPredicate → Nat → Bool
  | .exactVal v, x => x == v
  | .wildcard, _ => true
  | .range lo hi, x => decide (lo ≤ x) && decide (x ≤ hi)
  | .glob vs, x => vs.contains x
  | .negate p, x => !(p.matchesVal x)

/-- Modelled from the spec: a committed rule — engine-assigned id (0
reserved as unset/implicit), authorization target, and a list of
attribute conditions. -/
structure Rule where
  id : Nat
  target : Target
  conditions : List (AttrName × AttrPredicate)
  deriving DecidableEq, Repr

/-- Condition matching: every attribute predicate present in the rule
must match the device's corresponding attribute (logical AND); a rule
with no conditions matches every device. -/
def Rule.matchesDevice (r : Rule) (d : DeviceAttributes) : Bool :=
  r.conditions.all (fun c => c.2.matchesVal (d.attr c.1))

/-- Modelled from the spec: a RuleSet — an ordered sequence of rules
plus the engine-assigned monotonic id counter used for the next
committed rule.  Evaluation order is exactly the sequence order. -/
structure RuleSet where
  rules : List Rule
  nextId : Nat
  deriving DecidableEq, Repr

/-- A fresh RuleSet: no rules, next id 1 (id 0 is reserved). -/
def emptyRuleSet : RuleSet := { rules := [], nextId := 1 }

/-- First rule in the list, scanning in order, whose conditions are
satisfied by the device snapshot. -/
def firstMatch (d : DeviceAttributes) : List Rule → Option Rule
  | [] => none
  | r :: rest => if r.matchesDevice d then some r else firstMatch d rest

/-- Modelled from the spec: evaluate(deviceAttributes) scans rules in
order and returns target and id of the first rule whose conditions are
satisfied, or none when no rule matches. -/
def RuleSet.evaluate (rs : RuleSet) (d : DeviceAttributes) : Option (Target × Nat) :=
  (firstMatch d rs.rules).map (fun r => (r.target, r.id))

/-- Evaluation as performed by the engine: on no match the engine-wide
configured default target is applied, with rule id 0 (no matched rule). -/
def evaluateOrDefault (rs : RuleSet) (dflt : Target) (d : DeviceAttributes) : Target × Nat :=
  match rs.evaluate d with
  | some tr => tr
  | none => (dflt, 0)

/-- Modelled from the spec: a rule specification string passed to
appendRule.  The parsing grammar is an external concern (spec section 6),
so specifications are abstracted to either a malformed text or a fully
self-describing well-formed one (target plus conditions). -/
inductive RuleSpec where
  | malformed
  | wellFormed (target : Target) (conditions : List (AttrName × AttrPredicate))
  deriving DecidableEq, Repr

/-- Parse/validate a rule specification; none on malformed input. -/
def parseRuleSpec : RuleSpec → Option (Target × List (AttrName × AttrPredicate))
  | .malformed => none
  | .wellFormed t cs => some (t, cs)

/-- Modelled from the spec: the error taxonomy of the administrative
operations (spec section 7).  invalidRuleSpec stands for the
InvalidRuleSyntax error kind. -/
inductive OpError where
  | invalidRuleSpec
  | unknownRule
  | unknownParent
  | unknownDevice
  deriving DecidableEq, Repr

/-- Insert a new rule immediately after the first rule whose id is pid;
unchanged list when pid does not occur. -/
def insertAfterId (rules : List Rule) (pid : Nat) (newR : Rule) : List Rule :=
  match rules with
  | [] => []
  | r :: rest =>
    if r.id == pid then r :: newR :: rest else r :: insertAfterId rest pid newR

/-- Index of the rule with the given id, scanning in order. -/
def idIdx (rules : List Rule) (pid : Nat) : Option Nat :=
  match rules with
  | [] => none
  | r :: rest => if r.id == pid then some 0 else (idIdx rest pid).map (· + 1)

/-- Modelled from the spec: append(ruleSpec, parentId).  Parses and
validates the specification into a rule, assigns the next unique id,
inserts the rule immediately after parentId (or at the set's natural end
when parentId is 0).  Fails with InvalidRuleSyntax (invalidRuleSpec) on a
malformed specification and with UnknownParent when parentId does not
reference a live rule; the RuleSet is returned unchanged on failure. -/
def RuleSet.append (rs : RuleSet) (spec : RuleSpec) (parentId : Nat) :
    Except OpError Nat × RuleSet :=
  match parseRuleSpec spec with
  | none => (.error .invalidRuleSpec, rs)
  | some (t, cs) =>
    let newR : Rule := { id := rs.nextId, target := t, conditions := cs }
    if parentId == 0 then
      (.ok rs.nextId, { rules := rs.rules ++ [newR], nextId := rs.nextId + 1 })
    else if rs.rules.any (fun r => r.id == parentId) then
      (.ok rs.nextId, { rules := insertAfterId rs.rules parentId newR, nextId := rs.nextId + 1 })
    else
      (.error .unknownParent, rs)

/-- Modelled from the spec: remove(ruleId).  Removes the rule with that
id, preserving the order of the remaining rules; fails with UnknownRule
when no live rule has that id, returning the RuleSet unchanged. -/
def RuleSet.removeRule (rs : RuleSet) (rid : Nat) : Except OpError Unit × RuleSet :=
  if rs.rules.any (fun r => r.id == rid) then
    (.ok (), { rules := rs.rules.filter (fun r => r.id != rid), nextId := rs.nextId })
  else
    (.error .unknownRule, rs)

/-- Modelled from the spec: a filter expression for the read-only query
operation.  The concrete filter language is external; the model keeps a
distinguished empty filter (matches every rule) plus representative
target and condition filters. -/
inductive RuleFilter where
  | empty
  | withTarget (t : Target)
  | withCondition (a : AttrName) (p : AttrPredicate)
  deriving DecidableEq, Repr

/-- Whether one rule matches a filter expression. -/
def ruleMatchesFilter : RuleFilter → Rule → Bool
  | .empty, _ => true
  | .withTarget t, r => r.target == t
  | .withCondition a p, r => r.conditions.contains (a, p)

/-- Modelled from the spec: query(filterExpr) returns the matching rules
in RuleSet order together with the (unmodified) RuleSet, making the
read-only nature of the operation explicit. -/
def RuleSet.query (rs : RuleSet) (f : RuleFilter) : List Rule × RuleSet :=
  (rs.rules.filter (fun r => ruleMatchesFilter f r), rs)

/-- An administrative mutation of the RuleSet: an appendRule or a
removeRule call, with its arguments. -/
inductive RuleSetOp where
  | append (spec : RuleSpec) (parentId : Nat)
  | remove (id : Nat)
  deriving DecidableEq, Repr

/-- Apply one administrative operation to a RuleSet (a failed operation
leaves the RuleSet unchanged, as the operations above guarantee). -/
def RuleSet.applyOp (rs : RuleSet) : RuleSetOp → RuleSet
  | .append spec pid => (rs.append spec pid).2
  | .remove rid => (rs.removeRule rid).2

/-- Run a sequence of administrative operations from a starting state. -/
def runOps (rs : RuleSet) (ops : List RuleSetOp) : RuleSet :=
  ops.foldl RuleSet.applyOp rs

/-- The rule ids assigned to callers by the successful appends of an
operation sequence, in execution order. -/
def assignedIds (rs : RuleSet) : List RuleSetOp → List Nat
  | [] => []
  | op :: rest =>
    match op with
    | .append spec pid =>
      match (rs.append spec pid).1 with
      | .ok rid => rid :: assignedIds (rs.applyOp op) rest
      | .error _ => assignedIds (rs.applyOp op) rest
    | .remove _ => assignedIds (rs.applyOp op) rest

/-- The id-counter invariant of a RuleSet: the counter is positive, live
rule ids are pairwise distinct, and every live rule id is positive and
below the counter. -/
def RuleSet.IdInv (rs : RuleSet) : Prop :=
  0 < rs.nextId ∧ (rs.rules.map Rule.id).Nodup ∧
    ∀ r ∈ rs.rules, 0 < r.id ∧ r.id < rs.nextId

/-- Modelled from the spec: a Device Record — the engine's view of one
connected device: attribute snapshot at last observation, current
authorization target, and the id of the rule whose evaluation produced
the target (0 when the target was set by an administrative override).
The transient Pending state of the per-device state machine is never
observable between the atomic steps of this model, so record targets
range over the committed targets only. -/
structure DeviceRecord where
  attrs : DeviceAttributes
  target : Target
  matchedRuleId : Nat
  deriving DecidableEq, Repr

/-- Modelled from the spec: the Policy Engine — exclusive owner of the
RuleSet and of the Device Record table (keyed by device id), plus the
engine-wide configured default target applied when no rule matches.
Device ids are the correlation handles under which the external event
source reports one physical device. -/
structure Engine where
  ruleset : RuleSet
  devices : List (Nat × DeviceRecord)
  defaultTarget : Target
  deriving DecidableEq, Repr

/-- Look up the Device Record of a device id, none when the device has
no live record. -/
def lookupDevice (devices : List (Nat × DeviceRecord)) (did : Nat) : Option DeviceRecord :=
  match devices with
  | [] => none
  | (k, r) :: rest => if k == did then some r else lookupDevice rest did

/-- Create or update the Device Record of a device id. -/
def setDevice (devices : List (Nat × DeviceRecord)) (did : Nat) (dr : DeviceRecord) :
    List (Nat × DeviceRecord) :=
  match devices with
  | [] => [(did, dr)]
  | (k, r) :: rest =>
    if k == did then (k, dr) :: rest else (k, r) :: setDevice rest did dr

/-- Evict the Device Record of a device id from the table. -/
def removeDevice (devices : List (Nat × DeviceRecord)) (did : Nat) :
    List (Nat × DeviceRecord) :=
  devices.filter (fun kv => kv.1 != did)

/-- Modelled from the spec: the conditions of a rule synthesized by a
permanent applyDevicePolicy — exact-value predicates on the device's
identifying attributes. -/
def deviceConditions (d : DeviceAttributes) : List (AttrName × AttrPredicate) :=
  [(.vendorId, .exactVal d.vendorId), (.productId, .exactVal d.productId),
   (.serial, .exactVal d.serial), (.deviceClass, .exactVal d.deviceClass),
   (.port, .exactVal d.port), (.connectType, .exactVal d.connectType),
   (.hash, .exactVal d.hash)]

/-- Modelled from the spec: applyDevicePolicy(deviceId, target,
permanent).  Fails with UnknownDevice when deviceId has no live record
(engine unchanged).  Otherwise sets the record's target directly,
bypassing rule evaluation (matchedRuleId becomes 0: the target was set
by an administrative override); when permanent is set it also
synthesizes and appends one new rule matching the device's identifying
attributes with the given target and returns that rule's id, returning 0
otherwise. -/
def Engine.applyDevicePolicy (e : Engine) (did : Nat) (t : Target) (permanent : Bool) :
    Except OpError Nat × Engine :=
  match lookupDevice e.devices did with
  | none => (.error .unknownDevice, e)
  | some dr =>
    if permanent then
      match e.ruleset.append (.wellFormed t (deviceConditions dr.attrs)) 0 with
      | (.ok rid, rs) =>
        (.ok rid,
         { e with
            ruleset := rs
            devices := setDevice e.devices did { attrs := dr.attrs, target := t, matchedRuleId := 0 } })
      | (.error err, _) => (.error err, e)
    else
      (.ok 0,
       { e with
          devices := setDevice e.devices did { attrs := dr.attrs, target := t, matchedRuleId := 0 } })

/-- The removeRule operation lifted to the engine: it touches the
RuleSet only, never the Device Record table. -/
def Engine.removeRule (e : Engine) (rid : Nat) : Except OpError Unit × Engine :=
  ((e.ruleset.removeRule rid).1, { e with ruleset := (e.ruleset.removeRule rid).2 })

/-- The type of a Device Event, as in DeviceManager::EventType. -/
inductive EventType where
  | Insert
  | Update
  | Remove
  deriving DecidableEq, Repr

/-- Modelled from the spec: a Device Event delivered by the external
event source — its type, the device id it concerns, and the attribute
snapshot used to populate or refresh the Device Record. -/
structure DeviceEvent where
  type : EventType
  deviceId : Nat
  attrs : DeviceAttributes
  deriving DecidableEq, Repr

/-- The notification signals of the Interface contract
(Interface.hpp): DevicePresenceChanged, DevicePolicyChanged and
ExceptionMessage. -/
inductive Notification where
  | DevicePresenceChanged (deviceId : Nat) (event : EventType) (target : Target)
  | DevicePolicyChanged (deviceId : Nat) (targetOld targetNew : Target) (ruleId : Nat)
  | ExceptionMessage (context object reason : String)
  deriving DecidableEq, Repr

/-- Modelled from the spec: onDeviceEvent.  For Insert/Update: create or
update the Device Record, evaluate the RuleSet, set target and
matchedRuleId, invoke the Device Manager capability (the applyTarget
function) to physically apply the target — an enforcement failure is
reported via ExceptionMessage and is not raised to any caller, the
record keeping the intended target — then emit DevicePresenceChanged.
For Remove: emit DevicePresenceChanged carrying the prior target and
evict the record; a Remove for an unknown device is dropped with an
ExceptionMessage (spec section 7, UnknownException).  Notifications are
listed in emission order; DevicePresenceChanged comes last, after the
record has reached its new stable state. -/
def Engine.onDeviceEvent (applyTarget : Nat → Target → Bool) (e : Engine) (ev : DeviceEvent) :
    Engine × List Notification :=
  match ev.type with
  | .Remove =>
    match lookupDevice e.devices ev.deviceId with
    | none => (e, [.ExceptionMessage "Device" "remove" "unknown device"])
    | some dr =>
      ({ e with devices := removeDevice e.devices ev.deviceId },
       [.DevicePresenceChanged ev.deviceId .Remove dr.target])
  | ty =>
    let tr := evaluateOrDefault e.ruleset e.defaultTarget ev.attrs
    let e' := { e with
      devices := setDevice e.devices ev.deviceId
        { attrs := ev.attrs, target := tr.1, matchedRuleId := tr.2 } }
    let exc : List Notification :=
      if applyTarget ev.deviceId tr.1 then []
      else [.ExceptionMessage "Device" "enforce" "enforcement failure"]
    (e', exc ++ [.DevicePresenceChanged ev.deviceId ty tr.1])

/-- Process a sequence of Device Events, accumulating the emitted
notifications in order. -/
def Engine.processEvents (applyTarget : Nat → Target → Bool) (e : Engine) :
    List DeviceEvent → Engine × List Notification
  | [] => (e, [])
  | ev :: rest =>
    let step := e.onDeviceEvent applyTarget ev
    let next := step.1.processEvents applyTarget rest
    (next.1, step.2 ++ next.2)

/-- The DevicePresenceChanged notifications emitted for one device id,
projected to event type and target, in emission order. -/
def presenceFor (did : Nat) : List Notification → List (EventType × Target)
  | [] => []
  | .DevicePresenceChanged d ty t :: rest =>
    if d == did then (ty, t) :: presenceFor did rest else presenceFor did rest
  | _ :: rest => presenceFor did rest

/-- The last attribute snapshot a device reported: the last element of
the Update snapshot list, or the Insert snapshot when no Update
intervened.  The Device Record (and hence the target the Remove
notification reports) always reflects this snapshot. -/
def lastSnapshot (a0 : DeviceAttributes) : List DeviceAttributes → DeviceAttributes
  | [] => a0
  | a1 :: rest => lastSnapshot a1 rest

/-! Embedding of src/Daemon/main.cpp.  The part of main after option
parsing (lines 127-174) is embedded: logging setup, the option-dependent
hardening section (seccomp whitelist, capability drop, each compiled in
only under its build flag), and the try/catch block around Daemon
construction, configuration loading and the run loop.  The thrown C++
values are abstracted by their catch classification; the bodies of
setupSeccompWhitelist/setupCapabilities and the Daemon methods are
external to this translation unit's decision logic and appear as actions
in an execution trace, with the Daemon methods' outcomes (return or
throw) taken as parameters. -/

def EXIT_SUCCESS : Nat := 0

def EXIT_FAILURE : Nat := 1

/-- Classification of a thrown value by the catch clauses of main:
usbguard::Exception, std::exception, or anything else. -/
inductive ExcKind where
  | usbguardExc (msg : String)
  | stdExc (what : String)
  | otherExc
  deriving DecidableEq, Repr

/-- The error line logged by the catch clause handling the given thrown
value (main.cpp lines 164-172). -/
def excLogMessage : ExcKind → String
  | .usbguardExc m => "ERROR: " ++ m
  | .stdExc w => "EXCEPTION: " ++ w
  | .otherExc => "EXCEPTION: Unknown exception caught while starting the process"

/-- The compile-time configuration of the build: whether HAVE_SECCOMP
and HAVE_LIBCAPNG are defined. -/
structure BuildConfig where
  hasSeccomp : Bool
  hasLibcapng : Bool
  deriving DecidableEq, Repr

/-- The option flags of main after getopt parsing (main.cpp lines
77-125): -W sets useSeccompWhitelist, -C sets dropCapabilities, -c sets
confFile (default /etc/usbguard/usbguard-daemon.conf). -/
structure DaemonOptions where
  debugMode : Bool
  logSyslog : Bool
  logConsole : Bool
  logToFile : Bool
  useSeccompWhitelist : Bool
  dropCapabilities : Bool
  logFilePath : String
  pidFile : String
  confFile : String
  deriving DecidableEq, Repr

/-- The outcomes of the three Daemon steps invoked inside the try block:
none means the call returns normally, some k means it throws a value
caught as k.  The Daemon class itself is outside this translation
unit. -/
structure DaemonBehavior where
  constructExc : Option ExcKind
  loadConfigExc : Option ExcKind
  runExc : Option ExcKind
  deriving DecidableEq, Repr

/-- The externally visible actions main may perform, recorded in
execution order. -/
inductive MainAction where
  | setupLogging
  | setupSeccomp
  | setupCaps
  | constructDaemon
  | loadConfig (path : String)
  | runDaemon
  | logError (msg : String)
  deriving DecidableEq, Repr

/-- The try/catch block of main (main.cpp lines 154-174): construct the
Daemon, load the configuration when conf_file is nonempty, run; on the
first throw the matching catch clause logs an error line and ret keeps
EXIT_FAILURE; ret becomes EXIT_SUCCESS only after run() returns
normally. -/
def daemonTryBlock (opts : DaemonOptions) (beh : DaemonBehavior) : Nat × List MainAction :=
  match beh.constructExc with
  | some k => (EXIT_FAILURE, [.constructDaemon, .logError (excLogMessage k)])
  | none =>
    if opts.confFile.isEmpty then
      match beh.runExc with
      | some k => (EXIT_FAILURE, [.constructDaemon, .runDaemon, .logError (excLogMessage k)])
      | none => (EXIT_SUCCESS, [.constructDaemon, .runDaemon])
    else
      match beh.loadConfigExc with
      | some k =>
        (EXIT_FAILURE,
         [.constructDaemon, .loadConfig opts.confFile, .logError (excLogMessage k)])
      | none =>
        match beh.runExc with
        | some k =>
          (EXIT_FAILURE,
           [.constructDaemon, .loadConfig opts.confFile, .runDaemon,
            .logError (excLogMessage k)])
        | none =>
          (EXIT_SUCCESS, [.constructDaemon, .loadConfig opts.confFile, .runDaemon])

/-- Main after option parsing (main.cpp lines 127-174): set up
logging; when -W was given, return EXIT_FAILURE at once if the build
lacks seccomp support, else install the whitelist; when -C was given,
return EXIT_FAILURE at once if the build lacks libcap-ng support, else
drop capabilities; then enter the try block around the Daemon.  Returns
the exit code and the trace of performed actions. -/
def mainAfterOptions (build : BuildConfig) (opts : DaemonOptions) (beh : DaemonBehavior) :
    Nat × List MainAction :=
  let tr0 : List MainAction := [.setupLogging]
  if opts.useSeccompWhitelist && !build.hasSeccomp then
    (EXIT_FAILURE, tr0)
  else
    let tr1 := tr0 ++ (if opts.useSeccompWhitelist then [MainAction.setupSeccomp] else [])
    if opts.dropCapabilities && !build.hasLibcapng then
      (EXIT_FAILURE, tr1)
    else
      let tr2 := tr1 ++ (if opts.dropCapabilities then [MainAction.setupCaps] else [])
      let res := daemonTryBlock opts beh
      (res.1, tr2 ++ res.2)

/-! Concrete fixtures used by witnesses and counterexamples. -/

/-- The two-rule set of the spec's ordering test: vendor 1234 is blocked,
everything else is allowed by a catch-all rule. -/
def rsW : RuleSet :=
  { rules :=
      [ { id := 1, target := .Block, conditions := [(.vendorId, .exactVal 1234)] },
        { id := 2, target := .Allow, conditions := [] } ],
    nextId := 3 }

/-- A rule set none of whose rules match the fixture devices below. -/
def rsNoMatch : RuleSet :=
  { rules := [ { id := 1, target := .Allow, conditions := [(.vendorId, .exactVal 1)] } ],
    nextId := 2 }

/-- A device snapshot with vendor id 1234. -/
def dW : DeviceAttributes :=
  { vendorId := 1234, productId := 5, serial := 6, deviceClass := 7,
    port := 8, connectType := 9, hash := 10 }

/-- The all-zero device snapshot. -/
def attrs0 : DeviceAttributes :=
  { vendorId := 0, productId := 0, serial := 0, deviceClass := 0,
    port := 0, connectType := 0, hash := 0 }

/-- An engine with an empty rule set, no device records, default Block. -/
def engine0 : Engine :=
  { ruleset := emptyRuleSet, devices := [], defaultTarget := .Block }

/-- An engine holding the two-rule fixture set and one live device
record for device 1. -/
def engineW : Engine :=
  { ruleset := rsW,
    devices := [(1, { attrs := dW, target := .Block, matchedRuleId := 1 })],
    defaultTarget := .Block }

/-- A Device Manager capability whose enforcement always succeeds. -/
def capTrue : Nat → Target → Bool := fun _ _ => true

/-- A Device Manager capability whose enforcement always fails. -/
def capFalse : Nat → Target → Bool := fun _ _ => false

/-- A fixture operation sequence: three appends and a removal. -/
def opsW : List RuleSetOp :=
  [ .append (.wellFormed .Block [(.vendorId, .exactVal 1234)]) 0,
    .append (.wellFormed .Allow []) 0,
    .remove 1,
    .append (.wellFormed .Reject []) 2 ]

/-- Daemon options with no hardening flags and the default config path. -/
def optsW : DaemonOptions :=
  { debugMode := false, logSyslog := false, logConsole := false, logToFile := false,
    useSeccompWhitelist := false, dropCapabilities := false,
    logFilePath := "", pidFile := "", confFile := "/etc/usbguard/usbguard-daemon.conf" }

/-- A daemon whose run() throws an unknown value. -/
def behW : DaemonBehavior :=
  { constructExc := none, loadConfigExc := none, runExc := some .otherExc }

/-- A build with both seccomp and libcap-ng support. -/
def buildW : BuildConfig := { hasSeccomp := true, hasLibcapng := true }

/-! Theorems. -/

/-- firstMatch returns the rule at position i when it matches and no
earlier rule does. -/
theorem firstMatch_eq_get (d : DeviceAttributes) (l : List Rule) (i : Nat) (hi : i < l.length)
    (hm : (l.get ⟨i, hi⟩).matchesDevice d = true)
    (hf : ∀ j (hj : j < i), (l.get ⟨j, Nat.lt_trans hj hi⟩).matchesDevice d = false) :
    firstMatch d l = some (l.get ⟨i, hi⟩) := by
  induction l generalizing i with
  | nil => exact absurd hi (Nat.not_lt_zero i)
  | cons r rest ih =>
    cases i with
    | zero =>
      simp only [List.get] at hm
      simp [firstMatch, hm]
    | succ n =>
      have h0 : r.matchesDevice d = false := hf 0 (Nat.succ_pos n)
      have hi' : n < rest.length := Nat.lt_of_succ_lt_succ hi
      have hm' : (rest.get ⟨n, hi'⟩).matchesDevice d = true := hm
      have hf' : ∀ j (hj : j < n),
          (rest.get ⟨j, Nat.lt_trans hj hi'⟩).matchesDevice d = false :=
        fun j hj => hf (j + 1) (Nat.succ_lt_succ hj)
      simp [firstMatch, h0]
      exact ih n hi' hm' hf'

/-- firstMatch returns none when no rule in the list matches. -/
theorem firstMatch_eq_none (d : DeviceAttributes) (l : List Rule)
    (h : ∀ r ∈ l, r.matchesDevice d = false) :
    firstMatch d l = none := by
  induction l with
  | nil => rfl
  | cons r rest ih =>
    simp [firstMatch, h r (List.mem_cons_self r rest)]
    exact ih (fun x hx => h x (List.mem_cons_of_mem _ hx))

/-- C1: for every RuleSet and device attribute snapshot, evaluation
returns the target and id of the lowest-indexed rule all of whose
attribute predicates are satisfied by the device's corresponding
attributes; a rule with no conditions matches every device; and when no
rule matches, the engine's configured default target is returned
(with rule id 0). -/
theorem evaluate_first_match_wins :
    (∀ (rs : RuleSet) (dflt : Target) (d : DeviceAttributes) (i : Nat) (hi : i < rs.rules.length),
        (rs.rules.get ⟨i, hi⟩).matchesDevice d = true →
        (∀ j (hj : j < i), (rs.rules.get ⟨j, Nat.lt_trans hj hi⟩).matchesDevice d = false) →
        evaluateOrDefault rs dflt d =
          ((rs.rules.get ⟨i, hi⟩).target, (rs.rules.get ⟨i, hi⟩).id)) ∧
    (∀ (r : Rule) (d : DeviceAttributes), r.conditions = [] → r.matchesDevice d = true) ∧
    (∀ (rs : RuleSet) (dflt : Target) (d : DeviceAttributes),
        (∀ r ∈ rs.rules, r.matchesDevice d = false) →
        evaluateOrDefault rs dflt d = (dflt, 0)) := by
  refine ⟨?_, ?_, ?_⟩
  · intro rs dflt d i hi hm hf
    simp [evaluateOrDefault, RuleSet.evaluate, firstMatch_eq_get d rs.rules i hi hm hf]
  · intro r d h
    simp [Rule.matchesDevice, h]
  · intro rs dflt d h
    simp [evaluateOrDefault, RuleSet.evaluate, firstMatch_eq_none d rs.rules h]

/-- Witness for C1: on the spec's test rule set, a vendor-1234 device hits
the first rule (Block, id 1); the catch-all rule matches the device; and
on a set with no matching rule the default target is applied. -/
theorem evaluate_first_match_wins_witness :
    evaluateOrDefault rsW Target.Allow dW = (Target.Block, 1) ∧
    Rule.matchesDevice { id := 2, target := Target.Allow, conditions := [] } dW = true ∧
    evaluateOrDefault rsNoMatch Target.Block dW = (Target.Block, 0) := by
  refine ⟨?_, ?_, ?_⟩
  · exact evaluate_first_match_wins.1 rsW Target.Allow dW 0 (by decide) (by decide)
      (fun j hj => absurd hj (Nat.not_lt_zero j))
  · exact evaluate_first_match_wins.2.1 { id := 2, target := Target.Allow, conditions := [] } dW rfl
  · exact evaluate_first_match_wins.2.2 rsNoMatch Target.Block dW (by decide)

/-- Inserting after a live parent id yields a permutation of consing the
new rule. -/
theorem insertAfterId_perm (rules : List Rule) (pid : Nat) (newR : Rule)
    (h : rules.any (fun r => r.id == pid) = true) :
    (insertAfterId rules pid newR).Perm (newR :: rules) := by
  induction rules with
  | nil => simp at h
  | cons r rest ih =>
    cases hr : (r.id == pid) with
    | true =>
      simp [insertAfterId, hr]
      exact List.Perm.swap newR r rest
    | false =>
      simp only [List.any_cons, hr, Bool.false_or] at h
      have hperm := ih h
      simp [insertAfterId, hr]
      exact (hperm.cons r).trans (List.Perm.swap newR r rest)

/-- A RuleSet keeps the id invariant and a non-decreasing counter under
one successful or failed append. -/
theorem append_IdInv (rs : RuleSet) (spec : RuleSpec) (pid : Nat) (h : rs.IdInv) :
    (rs.append spec pid).2.IdInv ∧ rs.nextId ≤ (rs.append spec pid).2.nextId := by
  obtain ⟨hpos, hnd, hmem⟩ := h
  have hfresh : rs.nextId ∉ rs.rules.map Rule.id := by
    intro hin
    obtain ⟨r, hr, hid⟩ := List.mem_map.mp hin
    exact absurd (hid ▸ (hmem r hr).2) (lt_irrefl _)
  have hcons : ∀ (t : Target) (cs : List (AttrName × AttrPredicate)),
      RuleSet.IdInv { rules := ({ id := rs.nextId, target := t, conditions := cs } : Rule) :: rs.rules,
                      nextId := rs.nextId + 1 } := by
    intro t cs
    refine ⟨Nat.succ_pos _, ?_, ?_⟩
    · rw [List.map_cons]
      exact List.nodup_cons.mpr ⟨hfresh, hnd⟩
    · intro r hr
      rcases List.mem_cons.mp hr with hr | hr
      · subst hr
        exact ⟨hpos, Nat.lt_succ_self _⟩
      · exact ⟨(hmem r hr).1, Nat.lt_succ_of_lt (hmem r hr).2⟩
  have hperm : ∀ (newRules : List Rule) (t : Target) (cs : List (AttrName × AttrPredicate)),
      newRules.Perm (({ id := rs.nextId, target := t, conditions := cs } : Rule) :: rs.rules) →
      RuleSet.IdInv { rules := newRules, nextId := rs.nextId + 1 } := by
    intro newRules t cs hp
    obtain ⟨_, hnd', hmem'⟩ := hcons t cs
    refine ⟨Nat.succ_pos _, ?_, ?_⟩
    · exact ((hp.map Rule.id).nodup_iff).mpr hnd'
    · intro r hr
      exact hmem' r (hp.mem_iff.mp hr)
  cases spec with
  | malformed =>
    exact ⟨⟨hpos, hnd, hmem⟩, le_refl _⟩
  | wellFormed t cs =>
    by_cases hp : (pid == 0) = true
    · have heq : rs.append (.wellFormed t cs) pid =
          (.ok rs.nextId,
           { rules := rs.rules ++ [{ id := rs.nextId, target := t, conditions := cs }],
             nextId := rs.nextId + 1 }) := by
        simp [RuleSet.append, parseRuleSpec, hp]
      rw [heq]
      exact ⟨hperm _ t cs (List.perm_append_singleton _ _), Nat.le_succ _⟩
    · cases hany : rs.rules.any (fun r => r.id == pid) with
      | true =>
        have heq : rs.append (.wellFormed t cs) pid =
            (.ok rs.nextId,
             { rules := insertAfterId rs.rules pid
                 { id := rs.nextId, target := t, conditions := cs },
               nextId := rs.nextId + 1 }) := by
          simp [RuleSet.append, parseRuleSpec, hp, hany]
        rw [heq]
        exact ⟨hperm _ t cs (insertAfterId_perm rs.rules pid _ hany), Nat.le_succ _⟩
      | false =>
        have heq : rs.append (.wellFormed t cs) pid = (.error .unknownParent, rs) := by
          simp [RuleSet.append, parseRuleSpec, hp, hany]
        rw [heq]
        exact ⟨⟨hpos, hnd, hmem⟩, le_refl _⟩

/-- A RuleSet keeps the id invariant and its counter under removeRule. -/
theorem removeRule_IdInv (rs : RuleSet) (rid : Nat) (h : rs.IdInv) :
    (rs.removeRule rid).2.IdInv ∧ (rs.removeRule rid).2.nextId = rs.nextId := by
  obtain ⟨hpos, hnd, hmem⟩ := h
  cases hany : rs.rules.any (fun r => r.id == rid) with
  | true =>
    have heq : rs.removeRule rid =
        (.ok (), { rules := rs.rules.filter (fun r => r.id != rid), nextId := rs.nextId }) := by
      simp [RuleSet.removeRule, hany]
    rw [heq]
    refine ⟨⟨hpos, ?_, ?_⟩, rfl⟩
    · exact ((List.filter_sublist _).map Rule.id).nodup hnd
    · intro r hr
      exact hmem r (List.mem_of_mem_filter hr)
  | false =>
    have heq : rs.removeRule rid = (.error .unknownRule, rs) := by
      simp [RuleSet.removeRule, hany]
    rw [heq]
    exact ⟨⟨hpos, hnd, hmem⟩, rfl⟩

/-- A successful append hands out the current counter as the new rule's
id and bumps the counter by one. -/
theorem append_ok_result (rs : RuleSet) (spec : RuleSpec) (pid : Nat) (rid : Nat)
    (h : (rs.append spec pid).1 = .ok rid) :
    rid = rs.nextId ∧ (rs.append spec pid).2.nextId = rs.nextId + 1 := by
  cases spec with
  | malformed => simp [RuleSet.append, parseRuleSpec] at h
  | wellFormed t cs =>
    by_cases hp : (pid == 0) = true
    · simp [RuleSet.append, parseRuleSpec, hp] at h ⊢
      exact h.symm
    · cases hany : rs.rules.any (fun r => r.id == pid) with
      | true =>
        simp [RuleSet.append, parseRuleSpec, hp, hany] at h ⊢
        exact h.symm
      | false =>
        simp [RuleSet.append, parseRuleSpec, hp, hany] at h

/-- Running any operation sequence from a state with the id invariant
keeps the invariant, never decreases the counter, hands out strictly
increasing ids, and hands out only ids at or above the entry counter. -/
theorem assignedIds_inv (ops : List RuleSetOp) (rs : RuleSet) (h : rs.IdInv) :
    (runOps rs ops).IdInv ∧ rs.nextId ≤ (runOps rs ops).nextId ∧
    List.Pairwise (· < ·) (assignedIds rs ops) ∧
    (∀ j ∈ assignedIds rs ops, rs.nextId ≤ j) := by
  induction ops generalizing rs with
  | nil =>
    refine ⟨h, le_refl _, List.Pairwise.nil, ?_⟩
    intro j hj
    simp [assignedIds] at hj
  | cons op rest ih =>
    have hstep : (rs.applyOp op).IdInv ∧ rs.nextId ≤ (rs.applyOp op).nextId := by
      cases op with
      | append spec pid => exact append_IdInv rs spec pid h
      | remove rid =>
        obtain ⟨hi, he⟩ := removeRule_IdInv rs rid h
        exact ⟨hi, le_of_eq he.symm⟩
    obtain ⟨ih1, ih2, ih3, ih4⟩ := ih (rs.applyOp op) hstep.1
    have hrun1 : (runOps rs (op :: rest)).IdInv := ih1
    have hrun2 : rs.nextId ≤ (runOps rs (op :: rest)).nextId := le_trans hstep.2 ih2
    cases op with
    | remove rid =>
      refine ⟨hrun1, hrun2, ?_, ?_⟩
      · simpa [assignedIds] using ih3
      · intro j hj
        simp only [assignedIds] at hj
        exact le_trans hstep.2 (ih4 j hj)
    | append spec pid =>
      cases hres : (rs.append spec pid).1 with
      | error err =>
        refine ⟨hrun1, hrun2, ?_, ?_⟩
        · simpa [assignedIds, hres] using ih3
        · intro j hj
          simp only [assignedIds, hres] at hj
          exact le_trans hstep.2 (ih4 j hj)
      | ok rid =>
        obtain ⟨hid, hnext'⟩ := append_ok_result rs spec pid rid hres
        have hassign : assignedIds rs (RuleSetOp.append spec pid :: rest) =
            rid :: assignedIds (rs.applyOp (.append spec pid)) rest := by
          simp [assignedIds, hres]
        have hnext : (rs.applyOp (RuleSetOp.append spec pid)).nextId = rs.nextId + 1 := hnext'
        refine ⟨hrun1, hrun2, ?_, ?_⟩
        · rw [hassign]
          refine List.pairwise_cons.mpr ⟨?_, ih3⟩
          intro j hj
          have hj' := ih4 j hj
          rw [hnext] at hj'
          exact lt_of_lt_of_le (by rw [hid]; exact Nat.lt_succ_self rs.nextId) hj'
        · intro j hj
          rw [hassign] at hj
          rcases List.mem_cons.mp hj with hj | hj
          · exact le_of_eq (hj.trans hid).symm
          · have hj' := ih4 j hj
            rw [hnext] at hj'
            exact le_trans (Nat.le_succ _) hj'

/-- C2: for every finite sequence of append and remove operations on a
RuleSet (run from a fresh set, and hence at every point of any run, each
point being such a sequence), no two live rules share an id, the ids
handed out by successful appends form a strictly increasing sequence —
so no id is ever assigned twice, in particular an id of a removed rule
is never assigned again within the process lifetime — and the reserved
id 0 is never held by a committed rule nor handed out by an append. -/
theorem ruleset_id_uniqueness (ops : List RuleSetOp) :
    ((runOps emptyRuleSet ops).rules.map Rule.id).Nodup ∧
    (∀ r ∈ (runOps emptyRuleSet ops).rules, r.id ≠ 0) ∧
    List.Pairwise (· < ·) (assignedIds emptyRuleSet ops) ∧
    (assignedIds emptyRuleSet ops).Nodup ∧
    0 ∉ assignedIds emptyRuleSet ops := by
  have h0 : emptyRuleSet.IdInv := by
    refine ⟨Nat.one_pos, List.nodup_nil, ?_⟩
    intro r hr
    cases hr
  obtain ⟨⟨_, hnd, hmem⟩, _, hpw, hbd⟩ := assignedIds_inv ops emptyRuleSet h0
  refine ⟨hnd, ?_, hpw, ?_, ?_⟩
  · intro r hr
    have := (hmem r hr).1
    omega
  · exact hpw.imp (fun hab => Nat.ne_of_lt hab)
  · intro hin
    have := hbd 0 hin
    simp [emptyRuleSet] at this

/-- Witness for C2: the invariant instantiated on the fixture sequence of
three appends and one removal. -/
theorem ruleset_id_uniqueness_witness :
    ((runOps emptyRuleSet opsW).rules.map Rule.id).Nodup ∧
    (∀ r ∈ (runOps emptyRuleSet opsW).rules, r.id ≠ 0) ∧
    List.Pairwise (· < ·) (assignedIds emptyRuleSet opsW) ∧
    (assignedIds emptyRuleSet opsW).Nodup ∧
    0 ∉ assignedIds emptyRuleSet opsW :=
  ruleset_id_uniqueness opsW

/-- idIdx is none exactly when no rule in the list carries the id. -/
theorem idIdx_none_iff (rules : List Rule) (pid : Nat) :
    idIdx rules pid = none ↔ rules.any (fun r => r.id == pid) = false := by
  induction rules with
  | nil => simp [idIdx]
  | cons r rest ih =>
    cases hr : (r.id == pid) with
    | true => simp [idIdx, hr]
    | false => simp [idIdx, hr, ih]

/-- Inserting after the rule found at index i splits the list there. -/
theorem insertAfterId_eq_take_drop (rules : List Rule) (pid : Nat) (newR : Rule) (i : Nat)
    (h : idIdx rules pid = some i) :
    insertAfterId rules pid newR = rules.take (i + 1) ++ newR :: rules.drop (i + 1) := by
  induction rules generalizing i with
  | nil => simp [idIdx] at h
  | cons r rest ih =>
    cases hr : (r.id == pid) with
    | true =>
      simp [idIdx, hr] at h
      subst h
      simp [insertAfterId, hr]
    | false =>
      simp [idIdx, hr] at h
      obtain ⟨j, hj, hji⟩ := h
      subst hji
      simp [insertAfterId, hr, ih j hj]

/-- C4: append(ruleSpec, parentId) fails with InvalidRuleSyntax
(invalidRuleSpec) on a malformed specification and with UnknownParent
when the non-zero parentId references no live rule, leaving the RuleSet
unchanged in both failure cases; on success with parentId 0 the new rule
goes to the set's natural end, on success with a live parentId found at
index i it is inserted immediately after that rule, and in both success
cases the new rule's freshly assigned id is returned. -/
theorem append_error_cases_and_insertion (rs : RuleSet) (spec : RuleSpec) (pid : Nat) :
    (parseRuleSpec spec = none →
        rs.append spec pid = (.error .invalidRuleSpec, rs)) ∧
    (∀ t cs, parseRuleSpec spec = some (t, cs) → pid ≠ 0 →
        idIdx rs.rules pid = none →
        rs.append spec pid = (.error .unknownParent, rs)) ∧
    (∀ t cs, parseRuleSpec spec = some (t, cs) →
        rs.append spec 0 =
          (.ok rs.nextId,
           { rules := rs.rules ++ [{ id := rs.nextId, target := t, conditions := cs }],
             nextId := rs.nextId + 1 })) ∧
    (∀ t cs i, parseRuleSpec spec = some (t, cs) → pid ≠ 0 →
        idIdx rs.rules pid = some i →
        rs.append spec pid =
          (.ok rs.nextId,
           { rules := rs.rules.take (i + 1) ++
               { id := rs.nextId, target := t, conditions := cs } :: rs.rules.drop (i + 1),
             nextId := rs.nextId + 1 })) := by
  refine ⟨?_, ?_, ?_, ?_⟩
  · intro hparse
    simp [RuleSet.append, hparse]
  · intro t cs hparse hpid hidx
    have hany : rs.rules.any (fun r => r.id == pid) = false := (idIdx_none_iff _ _).mp hidx
    have hp : (pid == 0) = false := by
      cases hb : (pid == 0) with
      | true =>
        simp at hb
        exact absurd hb hpid
      | false => rfl
    simp [RuleSet.append, hparse, hp, hany]
  · intro t cs hparse
    simp [RuleSet.append, hparse]
  · intro t cs i hparse hpid hidx
    have hp : (pid == 0) = false := by
      cases hb : (pid == 0) with
      | true =>
        simp at hb
        exact absurd hb hpid
      | false => rfl
    have hany : rs.rules.any (fun r => r.id == pid) = true := by
      cases hb : rs.rules.any (fun r => r.id == pid) with
      | true => rfl
      | false =>
        rw [(idIdx_none_iff _ _).mpr hb] at hidx
        cases hidx
    simp [RuleSet.append, hparse, hp, hany, insertAfterId_eq_take_drop rs.rules pid _ i hidx]

/-- Witness for C4: all four branches exercised on the fixture rule set —
a malformed specification is rejected, a dangling parent id 99 is
rejected, an append at the end succeeds, and an insertion after rule 1
(index 0) succeeds, leaving the set unchanged on the failures. -/
theorem append_error_cases_and_insertion_witness :
    rsW.append .malformed 1 = (.error .invalidRuleSpec, rsW) ∧
    rsW.append (.wellFormed .Reject []) 99 = (.error .unknownParent, rsW) ∧
    rsW.append (.wellFormed .Reject []) 0 =
      (.ok 3, { rules := rsW.rules ++ [{ id := 3, target := .Reject, conditions := [] }],
                nextId := 4 }) ∧
    rsW.append (.wellFormed .Reject []) 1 =
      (.ok 3, { rules := rsW.rules.take 1 ++
                  { id := 3, target := .Reject, conditions := [] } :: rsW.rules.drop 1,
                nextId := 4 }) := by
  refine ⟨?_, ?_, ?_, ?_⟩
  · exact (append_error_cases_and_insertion rsW .malformed 1).1 rfl
  · exact (append_error_cases_and_insertion rsW (.wellFormed .Reject []) 99).2.1
      Target.Reject [] rfl (by decide) (by decide)
  · exact (append_error_cases_and_insertion rsW (.wellFormed .Reject []) 0).2.2.1
      Target.Reject [] rfl
  · exact (append_error_cases_and_insertion rsW (.wellFormed .Reject []) 1).2.2.2
      Target.Reject [] 0 rfl (by decide) (by decide)

/-- C7: remove(ruleId) removes exactly the rule with that id while
preserving the relative evaluation order of all remaining rules (the
result is a sublist of the original sequence containing precisely the
rules with a different id); it fails with UnknownRule, mutating nothing,
when no live rule has that id; and in every case the Device Record table
is untouched — no record's stored target or matchedRuleId changes, even
for a record whose target was produced by the removed rule. -/
theorem remove_exact_order_and_frame (e : Engine) (rid : Nat) :
    (e.ruleset.rules.any (fun r => r.id == rid) = true →
        (e.removeRule rid).1 = .ok () ∧
        (e.removeRule rid).2.ruleset.rules.Sublist e.ruleset.rules ∧
        (∀ r, r ∈ (e.removeRule rid).2.ruleset.rules ↔
            (r ∈ e.ruleset.rules ∧ r.id ≠ rid))) ∧
    (e.ruleset.rules.any (fun r => r.id == rid) = false →
        e.removeRule rid = (.error .unknownRule, e)) ∧
    (e.removeRule rid).2.devices = e.devices ∧
    (∀ did dr, lookupDevice e.devices did = some dr →
        lookupDevice (e.removeRule rid).2.devices did = some dr) := by
  have hframe : (e.removeRule rid).2.devices = e.devices := rfl
  refine ⟨?_, ?_, hframe, ?_⟩
  · intro hany
    have heq : e.ruleset.removeRule rid =
        (.ok (), { rules := e.ruleset.rules.filter (fun r => r.id != rid),
                   nextId := e.ruleset.nextId }) := by
      simp [RuleSet.removeRule, hany]
    refine ⟨?_, ?_, ?_⟩
    · show (e.ruleset.removeRule rid).1 = .ok ()
      rw [heq]
    · show (e.ruleset.removeRule rid).2.rules.Sublist e.ruleset.rules
      rw [heq]
      exact List.filter_sublist _
    · intro r
      show r ∈ (e.ruleset.removeRule rid).2.rules ↔ _
      rw [heq]
      simp [List.mem_filter]
  · intro hany
    have heq : e.ruleset.removeRule rid = (.error .unknownRule, e.ruleset) := by
      simp [RuleSet.removeRule, hany]
    show ((e.ruleset.removeRule rid).1, _) = _
    rw [heq]
  · intro did dr hdr
    rw [hframe]
    exact hdr

/-- Witness for C7: on the fixture engine, removing rule 1 succeeds and
leaves only rule 2 and the untouched device table; removing the absent
rule 99 fails with UnknownRule and changes nothing. -/
theorem remove_exact_order_and_frame_witness :
    (engineW.removeRule 1).1 = .ok () ∧
    (engineW.removeRule 1).2.ruleset.rules.Sublist engineW.ruleset.rules ∧
    ({ id := 1, target := .Block, conditions := [(.vendorId, .exactVal 1234)] } ∈
        (engineW.removeRule 1).2.ruleset.rules ↔
      ({ id := 1, target := .Block, conditions := [(.vendorId, .exactVal 1234)] } ∈
          engineW.ruleset.rules ∧ (1 : Nat) ≠ 1)) ∧
    engineW.removeRule 99 = (.error .unknownRule, engineW) ∧
    (engineW.removeRule 1).2.devices = engineW.devices ∧
    lookupDevice (engineW.removeRule 1).2.devices 1 =
      some { attrs := dW, target := .Block, matchedRuleId := 1 } := by
  obtain ⟨h1, h2, h3⟩ := (remove_exact_order_and_frame engineW 1).1 (by decide)
  refine ⟨h1, h2, h3 _, ?_, ?_, ?_⟩
  · exact (remove_exact_order_and_frame engineW 99).2.1 (by decide)
  · exact (remove_exact_order_and_frame engineW 1).2.2.1
  · exact (remove_exact_order_and_frame engineW 1).2.2.2 1
      { attrs := dW, target := .Block, matchedRuleId := 1 } (by decide)

/-- C8: query(filter) is read-only and idempotent — the RuleSet is
unchanged by the call, a repeated call on the returned state yields the
same ordered result sequence, the results appear in RuleSet order (the
result is a sublist of the rule sequence), and the empty filter returns
all rules. -/
theorem query_read_only_idempotent (rs : RuleSet) (f : RuleFilter) :
    (rs.query f).2 = rs ∧
    ((rs.query f).2.query f).1 = (rs.query f).1 ∧
    (rs.query f).1.Sublist rs.rules ∧
    (rs.query RuleFilter.empty).1 = rs.rules := by
  refine ⟨rfl, rfl, List.filter_sublist _, ?_⟩
  show rs.rules.filter (fun r => ruleMatchesFilter RuleFilter.empty r) = rs.rules
  have : (fun r => ruleMatchesFilter RuleFilter.empty r) = (fun _ => true) := rfl
  rw [this, List.filter_true]

/-- Looking up a device right after setting its record yields that
record. -/
theorem lookupDevice_setDevice (devices : List (Nat × DeviceRecord)) (did : Nat)
    (dr : DeviceRecord) :
    lookupDevice (setDevice devices did dr) did = some dr := by
  induction devices with
  | nil => simp [setDevice, lookupDevice]
  | cons kv rest ih =>
    obtain ⟨k, r⟩ := kv
    cases hk : (k == did) with
    | true => simp [setDevice, lookupDevice, hk]
    | false => simp [setDevice, lookupDevice, hk, ih]

/-- A rule whose conditions are the exact-value predicates of a device's
attributes matches that device. -/
theorem deviceConditions_matches_self (d : DeviceAttributes) (t : Target) (i : Nat) :
    Rule.matchesDevice { id := i, target := t, conditions := deviceConditions d } d = true := by
  simp [Rule.matchesDevice, deviceConditions, AttrPredicate.matchesVal, DeviceAttributes.attr]

/-- C3: applyDevicePolicy(D, target, permanent) on a device D with a live
record sets D's record to the given target immediately, bypassing rule
evaluation (matchedRuleId 0); with permanent true it appends exactly one
new rule — carrying the fresh id it returns — whose conditions match D's
identifying attributes with that target; with permanent false it returns
0 and leaves the RuleSet untouched; and when D has no live record it
fails with UnknownDevice mutating nothing. -/
theorem applyDevicePolicy_override (e : Engine) (did : Nat) (t : Target) (perm : Bool) :
    (lookupDevice e.devices did = none →
        e.applyDevicePolicy did t perm = (.error .unknownDevice, e)) ∧
    (∀ dr, lookupDevice e.devices did = some dr →
        lookupDevice (e.applyDevicePolicy did t perm).2.devices did =
          some { attrs := dr.attrs, target := t, matchedRuleId := 0 } ∧
        (perm = false →
            (e.applyDevicePolicy did t perm).1 = .ok 0 ∧
            (e.applyDevicePolicy did t perm).2.ruleset = e.ruleset) ∧
        (perm = true →
            (e.applyDevicePolicy did t perm).1 = .ok e.ruleset.nextId ∧
            (e.applyDevicePolicy did t perm).2.ruleset.rules =
              e.ruleset.rules ++
                [{ id := e.ruleset.nextId, target := t,
                   conditions := deviceConditions dr.attrs }] ∧
            (e.applyDevicePolicy did t perm).2.ruleset.nextId = e.ruleset.nextId + 1 ∧
            Rule.matchesDevice
              { id := e.ruleset.nextId, target := t, conditions := deviceConditions dr.attrs }
              dr.attrs = true)) := by
  constructor
  · intro hnone
    simp [Engine.applyDevicePolicy, hnone]
  · intro dr hdr
    cases perm with
    | false =>
      have heq : e.applyDevicePolicy did t false =
          (.ok 0,
           { e with devices := setDevice e.devices did ⟨dr.attrs, t, 0⟩ }) := by
        simp [Engine.applyDevicePolicy, hdr]
      rw [heq]
      refine ⟨lookupDevice_setDevice _ _ _, fun _ => ⟨rfl, rfl⟩, fun hcontra => ?_⟩
      cases hcontra
    | true =>
      have heq : e.applyDevicePolicy did t true =
          (.ok e.ruleset.nextId,
           { e with
              ruleset := { rules := e.ruleset.rules ++
                             [{ id := e.ruleset.nextId, target := t,
                                conditions := deviceConditions dr.attrs }],
                           nextId := e.ruleset.nextId + 1 }
              devices := setDevice e.devices did ⟨dr.attrs, t, 0⟩ }) := by
        simp [Engine.applyDevicePolicy, hdr, RuleSet.append, parseRuleSpec]
      rw [heq]
      refine ⟨lookupDevice_setDevice _ _ _, fun hcontra => ?_, fun _ => ?_⟩
      · cases hcontra
      · exact ⟨rfl, rfl, rfl, deviceConditions_matches_self dr.attrs t _⟩

/-- Witness for C3: on the fixture engine, a permanent Reject override of
the live device 1 updates its record, appends the synthesized rule with
the fresh id 3 and returns it; a non-permanent override returns 0 and
keeps the RuleSet; an override of the unknown device 9 fails with
UnknownDevice and changes nothing. -/
theorem applyDevicePolicy_override_witness :
    engineW.applyDevicePolicy 9 .Reject true = (.error .unknownDevice, engineW) ∧
    lookupDevice (engineW.applyDevicePolicy 1 .Reject true).2.devices 1 =
      some { attrs := dW, target := .Reject, matchedRuleId := 0 } ∧
    (engineW.applyDevicePolicy 1 .Reject true).1 = .ok 3 ∧
    (engineW.applyDevicePolicy 1 .Reject true).2.ruleset.rules =
      engineW.ruleset.rules ++
        [{ id := 3, target := .Reject, conditions := deviceConditions dW }] ∧
    (engineW.applyDevicePolicy 1 .Reject false).1 = .ok 0 ∧
    (engineW.applyDevicePolicy 1 .Reject false).2.ruleset = engineW.ruleset := by
  have hlook : lookupDevice engineW.devices 1 =
      some { attrs := dW, target := .Block, matchedRuleId := 1 } := by decide
  obtain ⟨hrec, _, hperm⟩ :=
    (applyDevicePolicy_override engineW 1 Target.Reject true).2
      { attrs := dW, target := .Block, matchedRuleId := 1 } hlook
  obtain ⟨hres, hrules, _, _⟩ := hperm rfl
  obtain ⟨hrec', hfalse, _⟩ :=
    (applyDevicePolicy_override engineW 1 Target.Reject false).2
      { attrs := dW, target := .Block, matchedRuleId := 1 } hlook
  obtain ⟨hres', hruleset'⟩ := hfalse rfl
  exact ⟨(applyDevicePolicy_override engineW 9 Target.Reject true).1 (by decide),
    hrec, hres, hrules, hres', hruleset'⟩

/-- C5: when the Device Manager capability fails to physically apply the
computed target for an Insert/Update event on device D, the engine still
updates D's Device Record to the intended (computed) target, an
ExceptionMessage notification reports the discrepancy, the engine state
is exactly what it would have been under any (for example an always
succeeding) capability — so the failure is not raised to any caller —
and the processing of any subsequent events is unaffected; onDeviceEvent
being total, the evaluation loop never halts on an enforcement
failure. -/
theorem enforcement_failure_isolation (cap capOther : Nat → Target → Bool) (e : Engine)
    (ev : DeviceEvent) (hty : ev.type ≠ EventType.Remove) :
    lookupDevice (e.onDeviceEvent cap ev).1.devices ev.deviceId =
      some { attrs := ev.attrs,
             target := (evaluateOrDefault e.ruleset e.defaultTarget ev.attrs).1,
             matchedRuleId := (evaluateOrDefault e.ruleset e.defaultTarget ev.attrs).2 } ∧
    (cap ev.deviceId (evaluateOrDefault e.ruleset e.defaultTarget ev.attrs).1 = false →
        Notification.ExceptionMessage "Device" "enforce" "enforcement failure" ∈
          (e.onDeviceEvent cap ev).2) ∧
    (e.onDeviceEvent cap ev).1 = (e.onDeviceEvent capOther ev).1 ∧
    (∀ evs, (e.onDeviceEvent cap ev).1.processEvents capOther evs =
        (e.onDeviceEvent capOther ev).1.processEvents capOther evs) := by
  obtain ⟨ty, did, a⟩ := ev
  have heq : ∀ c : Nat → Target → Bool,
      ({ type := ty, deviceId := did, attrs := a } : DeviceEvent).type ≠ EventType.Remove →
      e.onDeviceEvent c { type := ty, deviceId := did, attrs := a } =
        ({ e with devices := (setDevice e.devices did
             ⟨a, (evaluateOrDefault e.ruleset e.defaultTarget a).1,
              (evaluateOrDefault e.ruleset e.defaultTarget a).2⟩) },
         (if c did (evaluateOrDefault e.ruleset e.defaultTarget a).1 then []
          else [.ExceptionMessage "Device" "enforce" "enforcement failure"]) ++
           [.DevicePresenceChanged did ty (evaluateOrDefault e.ruleset e.defaultTarget a).1]) := by
    intro c hc
    cases ty with
    | Remove => exact absurd rfl hc
    | Insert => rfl
    | Update => rfl
  rw [heq cap hty, heq capOther hty]
  refine ⟨lookupDevice_setDevice _ _ _, ?_, rfl, fun evs => rfl⟩
  intro hfail
  rw [hfail]
  simp

/-- Witness for C5: on the fixture engine with an always-failing
capability, an Insert of device 7 records the evaluated Allow target
(catch-all rule 2), emits the enforcement ExceptionMessage, and the
engine state and the processing of a follow-up event for device 8 agree
with the always-succeeding capability. -/
theorem enforcement_failure_isolation_witness :
    lookupDevice
        (engineW.onDeviceEvent capFalse { type := .Insert, deviceId := 7, attrs := attrs0 }).1.devices
        7 = some { attrs := attrs0, target := .Allow, matchedRuleId := 2 } ∧
    Notification.ExceptionMessage "Device" "enforce" "enforcement failure" ∈
      (engineW.onDeviceEvent capFalse { type := .Insert, deviceId := 7, attrs := attrs0 }).2 ∧
    (engineW.onDeviceEvent capFalse { type := .Insert, deviceId := 7, attrs := attrs0 }).1 =
      (engineW.onDeviceEvent capTrue { type := .Insert, deviceId := 7, attrs := attrs0 }).1 ∧
    (engineW.onDeviceEvent capFalse { type := .Insert, deviceId := 7, attrs := attrs0 }).1.processEvents
        capTrue [{ type := .Insert, deviceId := 8, attrs := dW }] =
      (engineW.onDeviceEvent capTrue { type := .Insert, deviceId := 7, attrs := attrs0 }).1.processEvents
        capTrue [{ type := .Insert, deviceId := 8, attrs := dW }] := by
  obtain ⟨h1, h2, h3, h4⟩ :=
    enforcement_failure_isolation capFalse capTrue engineW
      { type := .Insert, deviceId := 7, attrs := attrs0 } (by decide)
  exact ⟨by rw [h1]; rfl, h2 rfl, h3, h4 _⟩

/-- presenceFor distributes over notification concatenation. -/
theorem presenceFor_append (did : Nat) (xs ys : List Notification) :
    presenceFor did (xs ++ ys) = presenceFor did xs ++ presenceFor did ys := by
  induction xs with
  | nil => rfl
  | cons n rest ih =>
    cases n with
    | DevicePresenceChanged d ty t =>
      cases hd : (d == did) with
      | true => simp [presenceFor, hd, ih]
      | false => simp [presenceFor, hd, ih]
    | DevicePolicyChanged d t1 t2 rid => simp [presenceFor, ih]
    | ExceptionMessage c o r => simp [presenceFor, ih]

/-- A record produced by setDevice vanishes under removeDevice together
with any prior record of the same device id. -/
theorem removeDevice_setDevice (devices : List (Nat × DeviceRecord)) (did : Nat)
    (dr : DeviceRecord) :
    removeDevice (setDevice devices did dr) did = removeDevice devices did := by
  induction devices with
  | nil => simp [setDevice, removeDevice, List.filter, bne]
  | cons kv rest ih =>
    obtain ⟨k, r⟩ := kv
    cases hk : (k == did) with
    | true => simp [setDevice, removeDevice, List.filter, bne, hk]
    | false => simpa [setDevice, removeDevice, List.filter, bne, hk] using ih

/-- After eviction a device id has no live record. -/
theorem lookupDevice_removeDevice (devices : List (Nat × DeviceRecord)) (did : Nat) :
    lookupDevice (removeDevice devices did) did = none := by
  induction devices with
  | nil => rfl
  | cons kv rest ih =>
    obtain ⟨k, r⟩ := kv
    cases hk : (k == did) with
    | true => simpa [removeDevice, List.filter, bne, hk] using ih
    | false => simpa [removeDevice, lookupDevice, List.filter, bne, hk] using ih

/-- From an engine whose record for the device reflects the snapshot a0,
running Update events carrying arbitrary snapshots and then a Remove
evicts the record and emits one DevicePresenceChanged per event: each
Update one carries the target re-evaluated from that Update's own
snapshot, and the Remove one carries the prior target — the one
evaluated from the last reported snapshot. -/
theorem processEvents_updates_remove (cap : Nat → Target → Bool) (e1 : Engine)
    (did : Nat) (a0 : DeviceAttributes) (as : List DeviceAttributes) (ar : DeviceAttributes)
    (hlook : lookupDevice e1.devices did =
      some ⟨a0, (evaluateOrDefault e1.ruleset e1.defaultTarget a0).1,
            (evaluateOrDefault e1.ruleset e1.defaultTarget a0).2⟩) :
    (e1.processEvents cap
        (as.map (fun ai => { type := .Update, deviceId := did, attrs := ai }) ++
          [{ type := .Remove, deviceId := did, attrs := ar }])).1 =
      { e1 with devices := removeDevice e1.devices did } ∧
    presenceFor did
        (e1.processEvents cap
          (as.map (fun ai => { type := .Update, deviceId := did, attrs := ai }) ++
            [{ type := .Remove, deviceId := did, attrs := ar }])).2 =
      as.map (fun ai =>
          (EventType.Update, (evaluateOrDefault e1.ruleset e1.defaultTarget ai).1)) ++
        [(EventType.Remove,
          (evaluateOrDefault e1.ruleset e1.defaultTarget (lastSnapshot a0 as)).1)] := by
  induction as generalizing e1 a0 with
  | nil =>
    have hstep : e1.onDeviceEvent cap { type := .Remove, deviceId := did, attrs := ar } =
        ({ e1 with devices := removeDevice e1.devices did },
         [.DevicePresenceChanged did .Remove
            (evaluateOrDefault e1.ruleset e1.defaultTarget a0).1]) := by
      simp [Engine.onDeviceEvent, hlook]
    constructor
    · simp [Engine.processEvents, hstep]
    · simp [Engine.processEvents, hstep, presenceFor, lastSnapshot]
  | cons a1 rest ih =>
    have hstep : e1.onDeviceEvent cap { type := .Update, deviceId := did, attrs := a1 } =
        ({ e1 with devices := (setDevice e1.devices did
             ⟨a1, (evaluateOrDefault e1.ruleset e1.defaultTarget a1).1,
              (evaluateOrDefault e1.ruleset e1.defaultTarget a1).2⟩) },
         (if cap did (evaluateOrDefault e1.ruleset e1.defaultTarget a1).1 then []
          else [Notification.ExceptionMessage "Device" "enforce" "enforcement failure"]) ++
           [Notification.DevicePresenceChanged did EventType.Update
             (evaluateOrDefault e1.ruleset e1.defaultTarget a1).1]) := rfl
    obtain ⟨ihE, ihP⟩ := ih
      { e1 with devices := (setDevice e1.devices did
          ⟨a1, (evaluateOrDefault e1.ruleset e1.defaultTarget a1).1,
           (evaluateOrDefault e1.ruleset e1.defaultTarget a1).2⟩) }
      a1 (lookupDevice_setDevice _ _ _)
    have hexc : presenceFor did
        (if cap did (evaluateOrDefault e1.ruleset e1.defaultTarget a1).1 then
          ([] : List Notification)
         else [Notification.ExceptionMessage "Device" "enforce" "enforcement failure"]) = [] := by
      cases cap did (evaluateOrDefault e1.ruleset e1.defaultTarget a1).1 with
      | true => rfl
      | false => rfl
    constructor
    · simp only [List.map_cons, List.cons_append, Engine.processEvents, List.append_eq, hstep]
      rw [ihE]
      simp [removeDevice_setDevice]
    · simp only [List.map_cons, List.cons_append, Engine.processEvents, List.append_eq, hstep]
      rw [presenceFor_append, presenceFor_append, hexc, ihP]
      simp [presenceFor, lastSnapshot]

/-- C6 (amended): an Insert event for device D followed, after k
intervening Update events each carrying an arbitrary attribute snapshot,
by a Remove event for D results in exactly k + 2 DevicePresenceChanged
notifications for D — one per processed event: first the insert-derived
state, then one per Update with the target re-evaluated from that
Update's snapshot, then the removal carrying the prior target, the one
evaluated from the last reported snapshot — and in zero residual Device
Record for D afterward; each processed Insert/Update emits
DevicePresenceChanged exactly once, and a Remove of a live device emits
exactly the one removal notification with the prior target, after the
record has reached its new stable state. -/
theorem insert_updates_remove_notifications (cap : Nat → Target → Bool) (e : Engine)
    (did : Nat) (a0 : DeviceAttributes) (as : List DeviceAttributes) (ar : DeviceAttributes) :
    presenceFor did
        (e.processEvents cap
          ({ type := .Insert, deviceId := did, attrs := a0 } ::
            (as.map (fun ai => { type := .Update, deviceId := did, attrs := ai }) ++
              [{ type := .Remove, deviceId := did, attrs := ar }]))).2 =
      (EventType.Insert, (evaluateOrDefault e.ruleset e.defaultTarget a0).1) ::
        (as.map (fun ai =>
            (EventType.Update, (evaluateOrDefault e.ruleset e.defaultTarget ai).1)) ++
          [(EventType.Remove,
            (evaluateOrDefault e.ruleset e.defaultTarget (lastSnapshot a0 as)).1)]) ∧
    (presenceFor did
        (e.processEvents cap
          ({ type := .Insert, deviceId := did, attrs := a0 } ::
            (as.map (fun ai => { type := .Update, deviceId := did, attrs := ai }) ++
              [{ type := .Remove, deviceId := did, attrs := ar }]))).2).length =
      as.length + 2 ∧
    lookupDevice
        (e.processEvents cap
          ({ type := .Insert, deviceId := did, attrs := a0 } ::
            (as.map (fun ai => { type := .Update, deviceId := did, attrs := ai }) ++
              [{ type := .Remove, deviceId := did, attrs := ar }]))).1.devices did = none ∧
    (∀ (e2 : Engine) (ev : DeviceEvent), ev.type ≠ EventType.Remove →
        (presenceFor ev.deviceId (e2.onDeviceEvent cap ev).2).length = 1) ∧
    (∀ (e2 : Engine) (ev : DeviceEvent) (dr : DeviceRecord), ev.type = EventType.Remove →
        lookupDevice e2.devices ev.deviceId = some dr →
        (e2.onDeviceEvent cap ev).2 =
          [Notification.DevicePresenceChanged ev.deviceId EventType.Remove dr.target]) := by
  have hstep : e.onDeviceEvent cap { type := .Insert, deviceId := did, attrs := a0 } =
      ({ e with devices := (setDevice e.devices did
           ⟨a0, (evaluateOrDefault e.ruleset e.defaultTarget a0).1,
            (evaluateOrDefault e.ruleset e.defaultTarget a0).2⟩) },
       (if cap did (evaluateOrDefault e.ruleset e.defaultTarget a0).1 then []
        else [Notification.ExceptionMessage "Device" "enforce" "enforcement failure"]) ++
         [Notification.DevicePresenceChanged did EventType.Insert
           (evaluateOrDefault e.ruleset e.defaultTarget a0).1]) := rfl
  obtain ⟨hfin, hpres⟩ :=
    processEvents_updates_remove cap
      { e with devices := (setDevice e.devices did
          ⟨a0, (evaluateOrDefault e.ruleset e.defaultTarget a0).1,
           (evaluateOrDefault e.ruleset e.defaultTarget a0).2⟩) }
      did a0 as ar (lookupDevice_setDevice _ _ _)
  have hexc : ∀ (d2 : Nat) (b : Bool), presenceFor d2
      (if b then ([] : List Notification)
       else [Notification.ExceptionMessage "Device" "enforce" "enforcement failure"]) = [] := by
    intro d2 b
    cases b with
    | true => rfl
    | false => rfl
  refine ⟨?_, ?_, ?_, ?_, ?_⟩
  · simp only [Engine.processEvents, hstep]
    rw [presenceFor_append, hpres, presenceFor_append, hexc]
    simp [presenceFor]
  · simp only [Engine.processEvents, hstep]
    rw [presenceFor_append, hpres, presenceFor_append, hexc]
    simp [presenceFor]
  · simp only [Engine.processEvents, hstep]
    rw [hfin]
    exact lookupDevice_removeDevice _ _
  · intro e2 ev hty
    obtain ⟨ty, d2, a2⟩ := ev
    have hstep2 : ∀ (ty2 : EventType),
        ({ type := ty2, deviceId := d2, attrs := a2 } : DeviceEvent).type ≠ EventType.Remove →
        e2.onDeviceEvent cap { type := ty2, deviceId := d2, attrs := a2 } =
          ({ e2 with devices := (setDevice e2.devices d2
               ⟨a2, (evaluateOrDefault e2.ruleset e2.defaultTarget a2).1,
                (evaluateOrDefault e2.ruleset e2.defaultTarget a2).2⟩) },
           (if cap d2 (evaluateOrDefault e2.ruleset e2.defaultTarget a2).1 then []
            else [Notification.ExceptionMessage "Device" "enforce" "enforcement failure"]) ++
             [Notification.DevicePresenceChanged d2 ty2
               (evaluateOrDefault e2.ruleset e2.defaultTarget a2).1]) := by
      intro ty2 hc
      cases ty2 with
      | Remove => exact absurd rfl hc
      | Insert => rfl
      | Update => rfl
    rw [hstep2 ty hty]
    rw [presenceFor_append, hexc]
    simp [presenceFor]
  · intro e2 ev dr hty hdr
    obtain ⟨ty, d2, a2⟩ := ev
    simp only at hty
    subst hty
    simp [Engine.onDeviceEvent, hdr]

/-- Counterexample for C6 as stated: on the empty-ruleset engine, an
Insert of device 1 followed by one intervening Update and then a Remove
produces three DevicePresenceChanged notifications for device 1 — one
per processed event — not exactly two as the claim demands. -/
theorem insert_update_remove_not_two_notifications :
    (presenceFor 1
        (engine0.processEvents capTrue
          [{ type := .Insert, deviceId := 1, attrs := attrs0 },
           { type := .Update, deviceId := 1, attrs := attrs0 },
           { type := .Remove, deviceId := 1, attrs := attrs0 }]).2).length = 3 ∧
    ¬ (presenceFor 1
        (engine0.processEvents capTrue
          [{ type := .Insert, deviceId := 1, attrs := attrs0 },
           { type := .Update, deviceId := 1, attrs := attrs0 },
           { type := .Remove, deviceId := 1, attrs := attrs0 }]).2).length = 2 := by
  decide

/-- Witness for C6 (amended): on the fixture engine, device 7 is
inserted with the all-zero snapshot (evaluating to Allow via the
catch-all rule), one attribute-changing Update reports the vendor-1234
snapshot (re-evaluating to Block via rule 1), and the Remove carries
that prior target Block — three notifications, no residual record; plus
one notification for a single Insert and the exact removal notification
for the live device 1. -/
theorem insert_updates_remove_notifications_witness :
    presenceFor 7
        (engineW.processEvents capTrue
          ({ type := .Insert, deviceId := 7, attrs := attrs0 } ::
            ([dW].map (fun ai => { type := .Update, deviceId := 7, attrs := ai }) ++
              [{ type := .Remove, deviceId := 7, attrs := attrs0 }]))).2 =
      [(EventType.Insert, Target.Allow), (EventType.Update, Target.Block),
       (EventType.Remove, Target.Block)] ∧
    (presenceFor 7
        (engineW.processEvents capTrue
          ({ type := .Insert, deviceId := 7, attrs := attrs0 } ::
            ([dW].map (fun ai => { type := .Update, deviceId := 7, attrs := ai }) ++
              [{ type := .Remove, deviceId := 7, attrs := attrs0 }]))).2).length = 3 ∧
    lookupDevice
        (engineW.processEvents capTrue
          ({ type := .Insert, deviceId := 7, attrs := attrs0 } ::
            ([dW].map (fun ai => { type := .Update, deviceId := 7, attrs := ai }) ++
              [{ type := .Remove, deviceId := 7, attrs := attrs0 }]))).1.devices 7 = none ∧
    (presenceFor 7
        (engineW.onDeviceEvent capTrue { type := .Insert, deviceId := 7, attrs := attrs0 }).2).length = 1 ∧
    (engineW.onDeviceEvent capTrue { type := .Remove, deviceId := 1, attrs := dW }).2 =
      [Notification.DevicePresenceChanged 1 EventType.Remove Target.Block] := by
  obtain ⟨h1, h2, h3, h4, h5⟩ :=
    insert_updates_remove_notifications capTrue engineW 7 attrs0 [dW] attrs0
  refine ⟨by rw [h1]; decide, by rw [h2]; decide, h3, ?_, ?_⟩
  · exact h4 engineW { type := .Insert, deviceId := 7, attrs := attrs0 } (by decide)
  · exact h5 engineW { type := .Remove, deviceId := 1, attrs := dW }
      { attrs := dW, target := .Block, matchedRuleId := 1 } rfl (by decide)

/-- The try block performs only daemon actions and error logging — no
hardening action is ever taken inside it. -/
theorem daemonTryBlock_no_hardening (opts : DaemonOptions) (beh : DaemonBehavior) :
    MainAction.setupSeccomp ∉ (daemonTryBlock opts beh).2 ∧
    MainAction.setupCaps ∉ (daemonTryBlock opts beh).2 := by
  obtain ⟨hc, hl, hr⟩ := beh
  cases hc with
  | some k => simp [daemonTryBlock]
  | none =>
    by_cases he : opts.confFile.isEmpty
    · cases hr with
      | some k => simp [daemonTryBlock, he]
      | none => simp [daemonTryBlock, he]
    · cases hl with
      | some k => simp [daemonTryBlock, he]
      | none =>
        cases hr with
        | some k => simp [daemonTryBlock, he]
        | none => simp [daemonTryBlock, he]

/-- C10: process hardening fails closed — when -W was given but the
build lacks seccomp support, or -C was given but the build lacks
libcap-ng support, main returns EXIT_FAILURE with the Daemon neither
constructed nor run; and when the options are absent no seccomp
whitelist is installed and no capabilities are dropped. -/
theorem hardening_fails_closed (build : BuildConfig) (opts : DaemonOptions)
    (beh : DaemonBehavior) :
    (opts.useSeccompWhitelist = true → build.hasSeccomp = false →
        (mainAfterOptions build opts beh).1 = EXIT_FAILURE ∧
        MainAction.constructDaemon ∉ (mainAfterOptions build opts beh).2 ∧
        MainAction.runDaemon ∉ (mainAfterOptions build opts beh).2) ∧
    (opts.dropCapabilities = true → build.hasLibcapng = false →
        (mainAfterOptions build opts beh).1 = EXIT_FAILURE ∧
        MainAction.constructDaemon ∉ (mainAfterOptions build opts beh).2 ∧
        MainAction.runDaemon ∉ (mainAfterOptions build opts beh).2) ∧
    (opts.useSeccompWhitelist = false →
        MainAction.setupSeccomp ∉ (mainAfterOptions build opts beh).2) ∧
    (opts.dropCapabilities = false →
        MainAction.setupCaps ∉ (mainAfterOptions build opts beh).2) := by
  obtain ⟨hns, hnc⟩ := daemonTryBlock_no_hardening opts beh
  refine ⟨?_, ?_, ?_, ?_⟩
  · intro hw hs
    simp [mainAfterOptions, hw, hs]
  · intro hd hl
    cases hw : (opts.useSeccompWhitelist && !build.hasSeccomp) with
    | true => simp [mainAfterOptions, hw]
    | false => simp [mainAfterOptions, hw, hd, hl]
  · intro hw
    cases hc : (opts.dropCapabilities && !build.hasLibcapng) with
    | true => simp [mainAfterOptions, hw, hc]
    | false =>
      simp [mainAfterOptions, hw, hc]
      intro hmem
      exact hns hmem
  · intro hd
    cases hw : (opts.useSeccompWhitelist && !build.hasSeccomp) with
    | true => simp [mainAfterOptions, hw, hd]
    | false =>
      simp [mainAfterOptions, hw, hd]
      intro hmem
      exact hnc hmem

/-- Witness for C10: with a build lacking both seccomp and libcap-ng, a
-W invocation and a -C invocation exit with EXIT_FAILURE without
touching the Daemon, and the flagless fixture run performs no hardening
action. -/
theorem hardening_fails_closed_witness :
    (mainAfterOptions { hasSeccomp := false, hasLibcapng := false }
        { optsW with useSeccompWhitelist := true } behW).1 = EXIT_FAILURE ∧
    MainAction.constructDaemon ∉
      (mainAfterOptions { hasSeccomp := false, hasLibcapng := false }
        { optsW with useSeccompWhitelist := true } behW).2 ∧
    (mainAfterOptions { hasSeccomp := false, hasLibcapng := false }
        { optsW with dropCapabilities := true } behW).1 = EXIT_FAILURE ∧
    MainAction.runDaemon ∉
      (mainAfterOptions { hasSeccomp := false, hasLibcapng := false }
        { optsW with dropCapabilities := true } behW).2 ∧
    MainAction.setupSeccomp ∉ (mainAfterOptions buildW optsW behW).2 ∧
    MainAction.setupCaps ∉ (mainAfterOptions buildW optsW behW).2 := by
  obtain ⟨hW1, hW2, _⟩ :=
    (hardening_fails_closed { hasSeccomp := false, hasLibcapng := false }
      { optsW with useSeccompWhitelist := true } behW).1 rfl rfl
  obtain ⟨hC1, _, hC3⟩ :=
    (hardening_fails_closed { hasSeccomp := false, hasLibcapng := false }
      { optsW with dropCapabilities := true } behW).2.1 rfl rfl
  exact ⟨hW1, hW2, hC1, hC3,
    (hardening_fails_closed buildW optsW behW).2.2.1 rfl,
    (hardening_fails_closed buildW optsW behW).2.2.2 rfl⟩

/-- C9: with the hardening checks passing, any exception thrown during
Daemon construction, loadConfiguration or run — usbguard::Exception,
std::exception or any other thrown value — is caught inside main and
logged as an error, main always returns an exit code (EXIT_SUCCESS or
EXIT_FAILURE, never propagating the exception), it returns EXIT_FAILURE
in every such case, and it returns EXIT_SUCCESS exactly when every
invoked step — in particular daemon.run() — returns normally. -/
theorem main_catches_daemon_exceptions (build : BuildConfig) (opts : DaemonOptions)
    (beh : DaemonBehavior)
    (hW : opts.useSeccompWhitelist = true → build.hasSeccomp = true)
    (hC : opts.dropCapabilities = true → build.hasLibcapng = true) :
    ((mainAfterOptions build opts beh).1 = EXIT_SUCCESS ∨
      (mainAfterOptions build opts beh).1 = EXIT_FAILURE) ∧
    ((mainAfterOptions build opts beh).1 = EXIT_SUCCESS ↔
      (beh.constructExc = none ∧
       (opts.confFile.isEmpty = true ∨ beh.loadConfigExc = none) ∧
       beh.runExc = none)) ∧
    ((beh.constructExc ≠ none ∨
        (opts.confFile.isEmpty = false ∧ beh.loadConfigExc ≠ none) ∨
        beh.runExc ≠ none) →
      (mainAfterOptions build opts beh).1 = EXIT_FAILURE ∧
      ∃ m, MainAction.logError m ∈ (mainAfterOptions build opts beh).2) := by
  have hw : (opts.useSeccompWhitelist && !build.hasSeccomp) = false := by
    cases hu : opts.useSeccompWhitelist with
    | false => rfl
    | true => simp [hW hu]
  have hc : (opts.dropCapabilities && !build.hasLibcapng) = false := by
    cases hu : opts.dropCapabilities with
    | false => rfl
    | true => simp [hC hu]
  have hmain : (mainAfterOptions build opts beh).1 = (daemonTryBlock opts beh).1 ∧
      ∀ x, x ∈ (daemonTryBlock opts beh).2 → x ∈ (mainAfterOptions build opts beh).2 := by
    constructor
    · simp [mainAfterOptions, hw, hc]
    · intro x hx
      simp [mainAfterOptions, hw, hc]
      exact Or.inr (Or.inr (Or.inr hx))
  obtain ⟨hm1, hm2⟩ := hmain
  obtain ⟨hce, hle, hre⟩ := beh
  rw [hm1]
  by_cases he : opts.confFile.isEmpty
  · cases hce with
    | some kc =>
      simp [daemonTryBlock, he, EXIT_SUCCESS, EXIT_FAILURE]
      exact ⟨excLogMessage kc, hm2 _ (by simp [daemonTryBlock, he])⟩
    | none =>
      cases hre with
      | some kr =>
        simp [daemonTryBlock, he, EXIT_SUCCESS, EXIT_FAILURE]
        exact ⟨excLogMessage kr, hm2 _ (by simp [daemonTryBlock, he])⟩
      | none => simp [daemonTryBlock, he, EXIT_SUCCESS, EXIT_FAILURE]
  · cases hce with
    | some kc =>
      simp [daemonTryBlock, he, EXIT_SUCCESS, EXIT_FAILURE]
      exact ⟨excLogMessage kc, hm2 _ (by simp [daemonTryBlock, he])⟩
    | none =>
      cases hle with
      | some kl =>
        simp [daemonTryBlock, he, EXIT_SUCCESS, EXIT_FAILURE]
        exact ⟨excLogMessage kl, hm2 _ (by simp [daemonTryBlock, he])⟩
      | none =>
        cases hre with
        | some kr =>
          simp [daemonTryBlock, he, EXIT_SUCCESS, EXIT_FAILURE]
          exact ⟨excLogMessage kr, hm2 _ (by simp [daemonTryBlock, he])⟩
        | none => simp [daemonTryBlock, he, EXIT_SUCCESS, EXIT_FAILURE]

/-- Witness for C9: on a fully supported build with no hardening flags,
a run() that throws an unknown value makes main return EXIT_FAILURE with
an error logged, and the same configuration with run() returning
normally exits with EXIT_SUCCESS. -/
theorem main_catches_daemon_exceptions_witness :
    (mainAfterOptions buildW optsW behW).1 = EXIT_FAILURE ∧
    (∃ m, MainAction.logError m ∈ (mainAfterOptions buildW optsW behW).2) ∧
    (mainAfterOptions buildW optsW
        { constructExc := none, loadConfigExc := none, runExc := none }).1 = EXIT_SUCCESS := by
  obtain ⟨-, -, h3⟩ :=
    main_catches_daemon_exceptions buildW optsW behW
      (fun h => absurd h (by decide)) (fun h => absurd h (by decide))
  obtain ⟨hf, hlog⟩ := h3 (Or.inr (Or.inr (by decide)))
  obtain ⟨-, h2', -⟩ :=
    main_catches_daemon_exceptions buildW optsW
      { constructExc := none, loadConfigExc := none, runExc := none }
      (fun h => absurd h (by decide)) (fun h => absurd h (by decide))
  exact ⟨hf, hlog, h2'.mpr ⟨rfl, Or.inr rfl, rfl⟩⟩

end usbguard
